import Mathlib

/-!
Verification development for the Latur news aggregation pipeline
(`src/fetch_news.py`).  The pipeline's pure logic is shallowly embedded:
texts are Lean `String`s (processed as `List Char`), the external
collaborators (HTML stripping, image extraction, date parsing, language
detection, translation) are fields of an explicit `Env` record, and one
run is a fold of the per-entry step function over the flattened entry
list, mirroring the body of `fetch_and_process_news`.
-/

set_option maxRecDepth 20000

/-- ASCII-range case folding, matching `str.lower()` on the ASCII letters.
Every non-ASCII character in this development is a Devanagari letter,
which `str.lower()` leaves unchanged, as `Char.toLower` does. -/
def lowerL (l : List Char) : List Char := l.map Char.toLower

/-- Word characters for Python's regex `\b` in Unicode mode: ASCII
alphanumerics, underscore, and (as an approximation sufficient here)
every non-ASCII character — the only non-ASCII characters occurring in
the embedded vocabulary and inputs are Devanagari letters, which Python's
`\w` matches. -/
def isWordChar (c : Char) : Bool := c.isAlphanum || c == '_' || decide (128 ≤ c.toNat)

/-- Wordness of an optional character; the absent ends of the string count
as non-word, as in Python's `\b`. -/
def isWordOpt : Option Char → Bool
  | none => false
  | some c => isWordChar c

/-- Python's `\b`: a boundary lies between two adjacent positions exactly
when their wordness differs. -/
def boundB (l r : Option Char) : Bool := isWordOpt l != isWordOpt r

/-- One candidate position of `re.search(r'\b' + kw + r'\b', t)`: the text
suffix `t` starts with `kw`, with a word boundary before the first and
after the last character of the occurrence; `p` is the character just
before the suffix (`none` at the start of the text). -/
def hitAt (kw : List Char) (p : Option Char) (t : List Char) : Bool :=
  kw.isPrefixOf t && boundB p kw.head? && boundB kw.getLast? ((t.drop kw.length).head?)

/-- `re.search(r'\b' + re.escape(kw) + r'\b', text)` as a left-to-right
scan over the text, carrying the previous character for the left
boundary test. -/
def relSearch (kw : List Char) (p : Option Char) : List Char → Bool
  | [] => hitAt kw p []
  | c :: rest => hitAt kw p (c :: rest) || relSearch kw (some c) rest

/-- Plain substring test (Python's `in` on strings), as a scan. -/
def subOf (kw : List Char) : List Char → Bool
  | [] => kw.isEmpty
  | c :: rest => kw.isPrefixOf (c :: rest) || subOf kw rest

/-- `DISTRICT_KEYWORDS` from `src/fetch_news.py`. -/
def DISTRICT_KEYWORDS : List String := [
  "Latur", "Udgir", "Ahmedpur", "Ausa", "Nilanga", "Renapur",
  "Chakur", "Deoni", "Devni", "Shirur Anantpal", "Shirur-Anantpal", "Jalkot", "Jalkote",
  "लातूर", "उदगीर", "अहमदपूर", "औसा", "निलंगा", "रेणापूर",
  "चाकूर", "देवणी", "शिरूर अनंतपाळ", "शिरुर अनंतपाळ", "जळकोट"
]

/-- `str.isascii()`: every code point is below 128. -/
def asciiStr (s : String) : Bool := s.data.all fun c => decide (c.toNat < 128)

/-- `is_relevant` from `src/fetch_news.py`: empty text is irrelevant;
ASCII keywords are matched with the word-boundary regex on the lowered
text, non-ASCII keywords by lowered substring containment. -/
def is_relevant (text : String) : Bool :=
  if text = "" then false
  else
    let text_lower := lowerL text.data
    DISTRICT_KEYWORDS.any fun keyword =>
      if asciiStr keyword then
        relSearch (lowerL keyword.data) none text_lower
      else
        subOf (lowerL keyword.data) text_lower

/-- `TRUSTED_SOURCES` from `src/fetch_news.py`. -/
def TRUSTED_SOURCES : List String := [
  "Latur Samachar", "Aaj Latur", "Ekmat", "dainikekmat.com", "Public App",
  "Public.app", "Punyanagari", "punyanagari.com"
]

/-- `SOURCE_DOMAINS` from `src/fetch_news.py`, in declaration order (the
iteration order of the Python dict, which the partial-match fallback
depends on). -/
def SOURCE_DOMAINS : List (String × String) := [
  ("Lokmat", "lokmat.com"),
  ("Lokmat.com", "lokmat.com"),
  ("Lokmat ePaper", "lokmat.com"),
  ("Sakal", "esakal.com"),
  ("Esakal", "esakal.com"),
  ("Pudhari", "pudhari.news"),
  ("Pudhari News", "pudhari.news"),
  ("Saamana", "saamana.com"),
  ("TV9 Marathi", "tv9marathi.com"),
  ("ABP Majha", "marathi.abplive.com"),
  ("News18", "news18.com"),
  ("News18 Lokmat", "news18.com"),
  ("news18marathi.com", "news18.com"),
  ("Zee News", "zeenews.india.com"),
  ("Zee 24 Taas", "zeenews.india.com"),
  ("Maharashtra Times", "maharashtratimes.com"),
  ("Loksatta", "loksatta.com"),
  ("Divya Marathi", "divyamarathi.bhaskar.com"),
  ("divyamarathi.bhaskar.com", "divyamarathi.bhaskar.com"),
  ("NDTV Marathi", "ndtv.com"),
  ("Agrowon", "agrowon.esakal.com"),
  ("Saam TV", "saamtv.esakal.com"),
  ("saamtv.esakal.com", "saamtv.esakal.com"),
  ("Tarun Bharat", "tarunbharat.com"),
  ("Deshonnati", "deshonnati.com"),
  ("Sarkarnama", "sarkarnama.esakal.com"),
  ("Jai Maharashtra", "jaimaharashtranews.com"),
  ("Max Maharashtra", "maxmaharashtra.com"),
  ("Punyanagari", "punyanagari.com"),
  ("Times of India", "timesofindia.indiatimes.com"),
  ("Hindustan Times", "hindustantimes.com"),
  ("Aaj Latur", "aajlatur.com"),
  ("Webdunia Marathi", "marathi.webdunia.com"),
  ("navarashtra.com", "navarashtra.com"),
  ("Pune Prime News", "puneprimenews.com"),
  ("Ekmat", "ekmat.com"),
  ("Ekmat ePaper", "ekmat.com"),
  ("Latur Samachar", "latursamachar.com"),
  ("Public App", "public.app"),
  ("Public.app", "public.app")
]

/-- A raw feed entry as consumed by `fetch_and_process_news`: the fields
the pipeline reads.  `source` is the optional `entry.source.title`
(`'source' in entry` in the Python). -/
structure Entry where
  title : String
  link : String
  published : String
  summary : String
  source : Option String
deriving DecidableEq, Repr

/-- One published record, field for field the dict appended to
`news_items`. -/
structure NewsItem where
  title : String
  link : String
  date : String
  image : String
  is_logo : Bool
  source : String
  description : String
deriving DecidableEq, Repr

/-- The mutable run state of `fetch_and_process_news`: the accumulated
output and the set of titles recorded as seen (modelled as a list,
membership-checked exactly). -/
structure St where
  news_items : List NewsItem
  seen_titles : List String
deriving DecidableEq, Repr

/-- The external collaborators of the pipeline: `BeautifulSoup.get_text`,
`<img src>` extraction (where `none` covers both "no image" and a parse
exception), `dateutil` parsing combined with the timezone conversion and
calendar-day projection (as a local day index, `none` on a parse
exception), `datetime.now().date()` as a day index, and the translator's
`detect` / `translate(dest='mr')` (returning `none` when the call
raises). -/
structure Env where
  stripHtml : String → String
  findImg : String → Option String
  parseDate : String → Option Nat
  today : Nat
  detect : String → Option String
  translate : String → Option String

/-- `entry.source.title if 'source' in entry else ""`. -/
def srcLabel (e : Entry) : String := e.source.getD ""

/-- `any(trusted in source_title for trusted in TRUSTED_SOURCES)`:
case-sensitive substring match of the allow-list entry inside the
source label. -/
def is_trusted (e : Entry) : Bool :=
  TRUSTED_SOURCES.any fun trusted => subOf trusted.data (srcLabel e).data

/-- The relevance gate of lines 188–203: trusted bypass, else keyword
relevance of the title, else of the stripped summary text. -/
def relevGate (env : Env) (e : Entry) : Bool :=
  is_trusted e || is_relevant e.title || is_relevant (env.stripHtml e.summary)

/-- Lines 207–225: the entry is kept only if its published date parses
and falls on today's local calendar day. -/
def is_today (env : Env) (e : Entry) : Bool :=
  env.parseDate e.published == some env.today

/-- `"https://logo.clearbit.com/" + domain`. -/
def logoURL (d : String) : String := "https://logo.clearbit.com/" ++ d

/-- The generic placeholder thumbnail. -/
def placeholderURL : String := "https://via.placeholder.com/300x200?text=Latur+News"

/-- Python's `needle in hay` substring test. -/
def containsSub (needle hay : String) : Bool := subOf needle.data hay.data

/-- `SOURCE_DOMAINS.get(source_name)` followed by the manual first-match
partial lookup (`name.lower() in source_name.lower()`), in declaration
order. -/
def resolveDomain (source_name : String) : Option String :=
  match List.lookup source_name SOURCE_DOMAINS with
  | some d => some d
  | none =>
    (SOURCE_DOMAINS.find? fun p =>
      subOf (lowerL p.1.data) (lowerL source_name.data)).map Prod.snd

/-- Lines 227–258: thumbnail resolution.  A found `src` that is empty
(falsy in Python) or contains "tracker" or "pixel" triggers the
fallback: the source label is resolved to a domain for a logo-service
URL (`is_logo = true`), else the generic placeholder (`is_logo =
false`). -/
def thumbnail (env : Env) (e : Entry) : String × Bool :=
  let image_url := match env.findImg e.summary with
    | some u => u
    | none => ""
  if image_url = "" || containsSub "tracker" image_url || containsSub "pixel" image_url then
    match resolveDomain (srcLabel e) with
    | some domain => (logoURL domain, true)
    | none => (placeholderURL, false)
  else (image_url, false)

/-- Python's `description[:500]`: string slicing by characters,
implemented over the character list. -/
def pyTake (s : String) (n : Nat) : String := ⟨s.data.take n⟩

/-- Lines 263–278, with the exception semantics of the single `try`
block made explicit: a failing `detect` leaves both texts unchanged; a
failing title translation leaves both unchanged; a failing description
translation (of the first 500 characters) keeps the already-translated
title and the original description. -/
def translateStep (env : Env) (title description : String) : String × String :=
  match env.detect (title ++ " " ++ description) with
  | none => (title, description)
  | some lang =>
    if lang ≠ "mr" then
      match env.translate title with
      | none => (title, description)
      | some t2 =>
        match env.translate (pyTake description 500) with
        | none => (t2, description)
        | some d2 => (t2, d2)
    else (title, description)

/-- The record appended to `news_items` for an accepted entry: thumbnail
resolution, markup stripping, then language normalization; the date
string is kept verbatim and the source label defaults to
"News Portal". -/
def mkItem (env : Env) (e : Entry) : NewsItem :=
  let ti := thumbnail env e
  let td := translateStep env e.title (env.stripHtml e.summary)
  { title := td.1
    link := e.link
    date := e.published
    image := ti.1
    is_logo := ti.2
    source := e.source.getD "News Portal"
    description := td.2 }

/-- The per-entry body of the loop in `fetch_and_process_news`, in source
order: skip already-seen titles; apply the relevance gate; record the
title as seen; apply the recency check; append the normalized item. -/
def step (env : Env) (s : St) (e : Entry) : St :=
  if s.seen_titles.contains e.title then s
  else if !relevGate env e then s
  else
    let s1 : St := { s with seen_titles := e.title :: s.seen_titles }
    if !is_today env e then s1
    else { s1 with news_items := s1.news_items ++ [mkItem env e] }

/-- One run of `fetch_and_process_news` over the flattened entry list:
the published output collection. -/
def fetch_and_process_news (env : Env) (all_entries : List Entry) : List NewsItem :=
  (all_entries.foldl (step env) ⟨[], []⟩).news_items

/-- Modelled from the spec: the configured exclusion vocabulary of the
strict-mode secondary exclusion (section 4.5).  This policy is absent
from `src/fetch_news.py` (it belongs to a different snapshot of the
logic); the spec names only the region "Pune". -/
def EXCLUDED_REGIONS : List String := ["Pune"]

/-- Modelled from the spec: "the title mentions a different, named region
from a configured exclusion vocabulary" — case-insensitive mention of an
excluded region in the title. -/
def mentionsExcludedRegion (title : String) : Bool :=
  EXCLUDED_REGIONS.any fun r => subOf (lowerL r.data) (lowerL title.data)

/-- Modelled from the spec: the per-entry step under the strict exclusion
policy — after the relevance gate, an entry whose title mentions an
excluded region and does not also mention the target district in the
title itself is rejected. -/
def stepStrict (env : Env) (s : St) (e : Entry) : St :=
  if s.seen_titles.contains e.title then s
  else if !relevGate env e then s
  else if mentionsExcludedRegion e.title && !is_relevant e.title then s
  else
    let s1 : St := { s with seen_titles := e.title :: s.seen_titles }
    if !is_today env e then s1
    else { s1 with news_items := s1.news_items ++ [mkItem env e] }

/-- Modelled from the spec: one run under the strict exclusion policy. -/
def strict_fetch_and_process_news (env : Env) (all_entries : List Entry) : List NewsItem :=
  (all_entries.foldl (stepStrict env) ⟨[], []⟩).news_items

/-- The character immediately left of the current scan suffix: the last
character of the consumed part `a`, or the carried `p` when nothing has
been consumed. -/
def lastOr (p : Option Char) : List Char → Option Char
  | [] => p
  | c :: rest => lastOr (some c) rest

lemma lastOr_cons_eq (a : List Char) : ∀ c : Char, lastOr (some c) a = (c :: a).getLast? := by
  induction a with
  | nil => intro c; rfl
  | cons d rest ih => intro c; rw [List.getLast?_cons_cons]; exact ih d

lemma lastOr_none_eq : ∀ a : List Char, lastOr none a = a.getLast?
  | [] => rfl
  | c :: rest => lastOr_cons_eq rest c

lemma hitAt_decomp (kw : List Char) (p : Option Char) (t : List Char) :
    hitAt kw p t = true ↔
      ∃ b, t = kw ++ b ∧ boundB p kw.head? = true ∧ boundB kw.getLast? b.head? = true := by
  unfold hitAt
  constructor
  · intro h
    rw [Bool.and_eq_true, Bool.and_eq_true] at h
    obtain ⟨⟨hpre, h1⟩, h2⟩ := h
    have hp : kw <+: t := by simpa using hpre
    obtain ⟨b, hb⟩ := hp
    refine ⟨b, hb.symm, h1, ?_⟩
    rw [← hb, List.drop_left] at h2
    exact h2
  · rintro ⟨b, rfl, h1, h2⟩
    rw [Bool.and_eq_true, Bool.and_eq_true]
    refine ⟨⟨?_, h1⟩, ?_⟩
    · simp
    · rw [List.drop_left]
      exact h2

lemma relSearch_iff {kw : List Char} (hkw : kw ≠ []) :
    ∀ (p : Option Char) (t : List Char),
    relSearch kw p t = true ↔
      ∃ a b, t = a ++ kw ++ b ∧ boundB (lastOr p a) kw.head? = true ∧
        boundB kw.getLast? b.head? = true := by
  intro p t
  induction t generalizing p with
  | nil =>
    constructor
    · intro h
      rw [show relSearch kw p [] = hitAt kw p [] from rfl, hitAt_decomp] at h
      obtain ⟨b, hb, -, -⟩ := h
      exact absurd (List.append_eq_nil.mp hb.symm).1 hkw
    · rintro ⟨a, b, hab, -, -⟩
      rw [List.append_assoc] at hab
      obtain ⟨-, h2⟩ := List.append_eq_nil.mp hab.symm
      exact absurd (List.append_eq_nil.mp h2).1 hkw
  | cons c rest ih =>
    rw [show relSearch kw p (c :: rest) = (hitAt kw p (c :: rest) || relSearch kw (some c) rest)
      from rfl, Bool.or_eq_true]
    constructor
    · rintro (h | h)
      · obtain ⟨b, hb, h1, h2⟩ := (hitAt_decomp kw p (c :: rest)).mp h
        exact ⟨[], b, by simpa using hb, h1, h2⟩
      · obtain ⟨a, b, hab, h1, h2⟩ := (ih (some c)).mp h
        exact ⟨c :: a, b, by simp [hab], h1, h2⟩
    · rintro ⟨a, b, hab, h1, h2⟩
      cases a with
      | nil =>
        left
        exact (hitAt_decomp kw p (c :: rest)).mpr ⟨b, by simpa using hab, h1, h2⟩
      | cons a0 a' =>
        right
        rw [List.cons_append, List.cons_append] at hab
        injection hab with hc hrest
        subst hc
        exact (ih (some c)).mpr ⟨a', b, hrest, h1, h2⟩

lemma subOf_iff (kw : List Char) : ∀ t : List Char, subOf kw t = true ↔ kw <:+: t := by
  intro t
  induction t with
  | nil => simp [subOf, List.isEmpty_iff]
  | cons c rest ih =>
    rw [show subOf kw (c :: rest) = (kw.isPrefixOf (c :: rest) || subOf kw rest) from rfl,
      Bool.or_eq_true, ih, List.infix_cons_iff]
    simp

lemma keywords_nonempty : ∀ kw ∈ DISTRICT_KEYWORDS, kw.data ≠ [] := by decide

/-- Refutation helper: when the boundary search fails on a text, no
decomposition of that text can exhibit a word-bounded occurrence. -/
lemma not_bounded_decomp_of_relSearch_false {kw t a b : List Char} (hne : kw ≠ [])
    (hf : relSearch kw none t = false) (hab : t = a ++ kw ++ b) :
    boundB a.getLast? kw.head? = false ∨ boundB kw.getLast? b.head? = false := by
  by_contra hcon
  push_neg at hcon
  obtain ⟨h1, h2⟩ := hcon
  rw [Bool.ne_false_iff] at h1 h2
  have hT : relSearch kw none t = true :=
    (relSearch_iff hne none t).mpr ⟨a, b, hab, by rw [lastOr_none_eq]; exact h1, h2⟩
  rw [hf] at hT
  cases hT

/-- C6: for all text T in which every occurrence of a Latin-script
(ASCII) district keyword lacks a word boundary on at least one side
(i.e. the keyword occurs only inside a longer word) and no native-script
keyword occurs as a substring, `is_relevant T` is false: ASCII keywords
are matched with word-boundary-delimited, case-insensitive
comparison. -/
theorem C6_ascii_word_boundary (t : String)
    (h1 : ∀ kw ∈ DISTRICT_KEYWORDS, asciiStr kw = true →
      ∀ a b, lowerL t.data = a ++ lowerL kw.data ++ b →
        boundB a.getLast? (lowerL kw.data).head? = false ∨
        boundB (lowerL kw.data).getLast? b.head? = false)
    (h2 : ∀ kw ∈ DISTRICT_KEYWORDS, asciiStr kw = false →
      ¬ (lowerL kw.data) <:+: (lowerL t.data)) :
    is_relevant t = false := by
  unfold is_relevant
  split
  · rfl
  · rw [List.any_eq_false]
    intro kw hkw
    have hne : lowerL kw.data ≠ [] := by
      simpa [lowerL] using keywords_nonempty kw hkw
    by_cases hA : asciiStr kw = true
    · rw [if_pos hA]
      intro hrel
      obtain ⟨a, b, hab, hb1, hb2⟩ := (relSearch_iff hne none (lowerL t.data)).mp hrel
      rw [lastOr_none_eq] at hb1
      rcases h1 kw hkw hA a b hab with hf | hf
      · rw [hf] at hb1; cases hb1
      · rw [hf] at hb2; cases hb2
    · rw [if_neg hA]
      intro hsub
      exact h2 kw hkw (Bool.not_eq_true _ ▸ hA : asciiStr kw = false)
        ((subOf_iff _ _).mp hsub)

/-- Witness for C6: "Causal chain of events" contains the keyword "Ausa"
only inside the longer word "Causal", and `is_relevant` rejects it. -/
theorem C6_witness : is_relevant "Causal chain of events" = false := by
  apply C6_ascii_word_boundary
  · intro kw hkw hA a b hab
    fin_cases hkw <;>
      first
        | exact absurd hA (by decide)
        | exact not_bounded_decomp_of_relSearch_false (by decide) (by decide) hab
  · intro kw hkw hA hsub
    fin_cases hkw <;>
      first
        | exact absurd hA (by decide)
        | exact absurd ((subOf_iff _ _).mpr hsub) (by decide)

/-- C7: for all text T containing a native-script (non-ASCII) district
keyword as a substring — in particular with an inflectional suffix
attached — `is_relevant T` is true: non-Latin keywords are matched by
case-insensitive substring comparison. -/
theorem C7_native_substring_match (t kw : String) (hkw : kw ∈ DISTRICT_KEYWORDS)
    (hA : asciiStr kw = false)
    (hsub : (lowerL kw.data) <:+: (lowerL t.data)) :
    is_relevant t = true := by
  have hkwne : kw.data ≠ [] := keywords_nonempty kw hkw
  have htne : ¬ (t = "") := by
    intro h
    subst h
    have h0 : lowerL kw.data = [] := by
      simpa using List.infix_nil.mp (by simpa [lowerL] using hsub)
    exact hkwne (by simpa [lowerL] using h0)
  unfold is_relevant
  rw [if_neg htne, List.any_eq_true]
  refine ⟨kw, hkw, ?_⟩
  rw [if_neg (by rw [hA]; exact Bool.false_ne_true)]
  exact (subOf_iff _ _).mpr hsub

/-- Witness for C7: the native keyword "लातूर" with the inflectional
suffix "मध्ये" attached is still matched. -/
theorem C7_witness : is_relevant "लातूरमध्ये आज बैठक झाली" = true :=
  C7_native_substring_match "लातूरमध्ये आज बैठक झाली" "लातूर" (by decide) (by decide)
    (by decide)

lemma contains_iff_mem {l : List String} {a : String} : l.contains a = true ↔ a ∈ l := by
  simp [List.contains]

lemma contains_false_iff {l : List String} {a : String} : l.contains a = false ↔ a ∉ l := by
  simp [List.contains]

lemma step_of_seen {env : Env} {s : St} {e : Entry}
    (h : s.seen_titles.contains e.title = true) : step env s e = s := by
  simp [step, contains_iff_mem.mp h]

lemma step_of_not_gate {env : Env} {s : St} {e : Entry}
    (h1 : s.seen_titles.contains e.title = false) (h2 : relevGate env e = false) :
    step env s e = s := by
  simp [step, contains_false_iff.mp h1, h2]

lemma step_of_stale {env : Env} {s : St} {e : Entry}
    (h1 : s.seen_titles.contains e.title = false) (h2 : relevGate env e = true)
    (h3 : is_today env e = false) :
    step env s e = { s with seen_titles := e.title :: s.seen_titles } := by
  simp [step, contains_false_iff.mp h1, h2, h3]

lemma step_of_accept {env : Env} {s : St} {e : Entry}
    (h1 : s.seen_titles.contains e.title = false) (h2 : relevGate env e = true)
    (h3 : is_today env e = true) :
    step env s e = ⟨s.news_items ++ [mkItem env e], e.title :: s.seen_titles⟩ := by
  simp [step, contains_false_iff.mp h1, h2, h3]

lemma step_seen_of_gate {env : Env} {s : St} {e : Entry}
    (h1 : s.seen_titles.contains e.title = false) (h2 : relevGate env e = true) :
    (step env s e).seen_titles = e.title :: s.seen_titles := by
  cases h3 : is_today env e with
  | false => rw [step_of_stale h1 h2 h3]
  | true => rw [step_of_accept h1 h2 h3]

lemma step_seen_mono {env : Env} {s : St} {e : Entry} {t : String}
    (h : t ∈ s.seen_titles) : t ∈ (step env s e).seen_titles := by
  cases h1 : s.seen_titles.contains e.title with
  | true => rw [step_of_seen h1]; exact h
  | false =>
    cases h2 : relevGate env e with
    | false => rw [step_of_not_gate h1 h2]; exact h
    | true => rw [step_seen_of_gate h1 h2]; exact List.mem_cons_of_mem _ h

/-- The titles recorded as seen after a fold are exactly the initial ones
plus the titles of entries that passed the relevance gate (trusted or
keyword-relevant) — whether or not they also passed the recency check. -/
lemma seen_foldl_iff (env : Env) :
    ∀ (es : List Entry) (s : St) (t : String),
    t ∈ (es.foldl (step env) s).seen_titles ↔
      t ∈ s.seen_titles ∨ ∃ e ∈ es, e.title = t ∧ relevGate env e = true := by
  intro es
  induction es with
  | nil => intro s t; simp
  | cons e es ih =>
    intro s t
    rw [List.foldl_cons, ih]
    constructor
    · rintro (h | ⟨e', he', ht, hg⟩)
      · cases hc : s.seen_titles.contains e.title with
        | true =>
          rw [step_of_seen hc] at h
          exact Or.inl h
        | false =>
          cases hg : relevGate env e with
          | false =>
            rw [step_of_not_gate hc hg] at h
            exact Or.inl h
          | true =>
            rw [step_seen_of_gate hc hg] at h
            rcases List.mem_cons.mp h with rfl | hmem
            · exact Or.inr ⟨e, List.mem_cons_self e es, rfl, hg⟩
            · exact Or.inl hmem
      · exact Or.inr ⟨e', List.mem_cons_of_mem _ he', ht, hg⟩
    · rintro (h | ⟨e', he', ht, hg⟩)
      · exact Or.inl (step_seen_mono h)
      · rcases List.mem_cons.mp he' with rfl | hmem
        · left
          cases hc : s.seen_titles.contains e'.title with
          | true =>
            rw [step_of_seen hc]
            exact ht ▸ contains_iff_mem.mp hc
          | false =>
            rw [step_seen_of_gate hc hg]
            exact ht ▸ List.mem_cons_self _ _
        · exact Or.inr ⟨e', hmem, ht, hg⟩

/-- C3 (amended): during one run, a raw entry is skipped by title-based
deduplication if and only if some earlier entry with exactly the same
title passed the relevance gate (trusted-source bypass or keyword
relevance) — whether or not that earlier entry was subsequently accepted
and appended; entries rejected by the relevance gate do not cause later
same-title entries to be skipped, but entries rejected only by the
recency check do. -/
theorem C3_amended_dedup_iff (env : Env) (es1 : List Entry) (e : Entry) :
    e.title ∈ (es1.foldl (step env) ⟨[], []⟩).seen_titles ↔
      ∃ ep ∈ es1, ep.title = e.title ∧ relevGate env ep = true := by
  rw [seen_foldl_iff]
  simp

/-- Environment for the C3 counterexample: no images, no translation
(Marathi detected), and only the date string "today" parses to the
current day. -/
def C3env : Env :=
  ⟨id, fun _ => none, fun s => if s = "today" then some 0 else none, 0,
    fun _ => some "mr", fun _ => none⟩

/-- First C3 entry: relevant title, stale date. -/
def C3e1 : Entry := ⟨"Latur blast probe", "l1", "stale", "x", none⟩

/-- Second C3 entry: the same title, dated today. -/
def C3e2 : Entry := ⟨"Latur blast probe", "l2", "today", "y", none⟩

/-- Counterexample for C3 as stated: entry C3e1 passes the relevance
gate but fails recency, so it is never appended; alone, C3e2 would be
accepted and published; yet in the run over both, C3e2 is skipped by
deduplication and the output is empty — an entry that was examined but
not accepted does cause a later same-title entry to be skipped. -/
theorem C3_counterexample :
    fetch_and_process_news C3env [C3e1, C3e2] = [] ∧
    fetch_and_process_news C3env [C3e2] = [mkItem C3env C3e2] ∧
    relevGate C3env C3e1 = true ∧
    is_today C3env C3e1 = false := by
  refine ⟨by decide, by decide, by decide, by decide⟩

lemma step_items_of_not_today {env : Env} {s : St} {e : Entry}
    (h : is_today env e = false) :
    (step env s e).news_items = s.news_items := by
  cases h1 : s.seen_titles.contains e.title with
  | true => rw [step_of_seen h1]
  | false =>
    cases h2 : relevGate env e with
    | false => rw [step_of_not_gate h1 h2]
    | true => rw [step_of_stale h1 h2 h]

lemma step_item_mem {env : Env} {s : St} {e : Entry} {item : NewsItem}
    (h : item ∈ (step env s e).news_items) :
    item ∈ s.news_items ∨ item = mkItem env e := by
  cases h1 : s.seen_titles.contains e.title with
  | true => rw [step_of_seen h1] at h; exact Or.inl h
  | false =>
    cases h2 : relevGate env e with
    | false => rw [step_of_not_gate h1 h2] at h; exact Or.inl h
    | true =>
      cases h3 : is_today env e with
      | false => rw [step_of_stale h1 h2 h3] at h; exact Or.inl h
      | true =>
        rw [step_of_accept h1 h2 h3] at h
        rcases List.mem_append.mp h with h' | h'
        · exact Or.inl h'
        · exact Or.inr (List.mem_singleton.mp h')

lemma items_foldl_shape (env : Env) :
    ∀ (es : List Entry) (s : St), ∀ item ∈ (es.foldl (step env) s).news_items,
      item ∈ s.news_items ∨ ∃ e ∈ es, item = mkItem env e := by
  intro es
  induction es with
  | nil => intro s item h; exact Or.inl h
  | cons e es ih =>
    intro s item h
    rw [List.foldl_cons] at h
    rcases ih (step env s e) item h with h1 | ⟨e1, he1, heq⟩
    · rcases step_item_mem h1 with h2 | h2
      · exact Or.inl h2
      · exact Or.inr ⟨e, List.mem_cons_self e es, h2⟩
    · exact Or.inr ⟨e1, List.mem_cons_of_mem _ he1, heq⟩

lemma mkItem_title (env : Env) (e : Entry) :
    (mkItem env e).title = (translateStep env e.title (env.stripHtml e.summary)).1 := rfl

lemma titles_invariant (env : Env) (hpres : ∀ t d, (translateStep env t d).1 = t) :
    ∀ (es : List Entry) (s : St),
      s.news_items.Pairwise (fun a b => a.title ≠ b.title) →
      (∀ it ∈ s.news_items, it.title ∈ s.seen_titles) →
      (es.foldl (step env) s).news_items.Pairwise (fun a b => a.title ≠ b.title) ∧
      ∀ it ∈ (es.foldl (step env) s).news_items,
        it.title ∈ (es.foldl (step env) s).seen_titles := by
  intro es
  induction es with
  | nil => intro s h1 h2; exact ⟨h1, h2⟩
  | cons e es ih =>
    intro s h1 h2
    rw [List.foldl_cons]
    apply ih
    · cases hc : s.seen_titles.contains e.title with
      | true => rw [step_of_seen hc]; exact h1
      | false =>
        cases hg : relevGate env e with
        | false => rw [step_of_not_gate hc hg]; exact h1
        | true =>
          cases htd : is_today env e with
          | false => rw [step_of_stale hc hg htd]; exact h1
          | true =>
            rw [step_of_accept hc hg htd]
            dsimp only
            rw [List.pairwise_append]
            refine ⟨h1, by simp, ?_⟩
            intro a ha b hb
            rw [List.mem_singleton] at hb
            subst hb
            rw [mkItem_title, hpres]
            intro hEq
            have hm : e.title ∈ s.seen_titles := hEq ▸ h2 a ha
            exact absurd (contains_iff_mem.mpr hm) (by rw [hc]; exact Bool.false_ne_true)
    · cases hc : s.seen_titles.contains e.title with
      | true => rw [step_of_seen hc]; exact h2
      | false =>
        cases hg : relevGate env e with
        | false => rw [step_of_not_gate hc hg]; exact h2
        | true =>
          cases htd : is_today env e with
          | false =>
            rw [step_of_stale hc hg htd]
            intro it hit
            exact List.mem_cons_of_mem _ (h2 it hit)
          | true =>
            rw [step_of_accept hc hg htd]
            intro it hit
            rcases List.mem_append.mp hit with h' | h'
            · exact List.mem_cons_of_mem _ (h2 it h')
            · rw [List.mem_singleton] at h'
              subst h'
              rw [mkItem_title, hpres]
              exact List.mem_cons_self _ _

/-- C1 (amended): in every run in which the language-normalization step
leaves titles unchanged (for example, when the detected language is the
target language, so no translation happens), the published output
collection contains no two NewsItems with identical title, under exact
case-sensitive comparison.  (Deduplication keys on the pre-translation
titles, so when translation rewrites titles, items originating from
distinct raw titles may be published with identical titles — see the
counterexample.) -/
theorem C1_amended_title_unique (env : Env) (es : List Entry)
    (hpres : ∀ t d, (translateStep env t d).1 = t) :
    (fetch_and_process_news env es).Pairwise (fun a b => a.title ≠ b.title) :=
  (titles_invariant env hpres es ⟨[], []⟩ (by simp) (by simp)).1

/-- Environment for the C1 witness: Marathi is detected, so titles pass
through translation unchanged. -/
def C1env : Env :=
  ⟨id, fun _ => none, fun _ => some 0, 0, fun _ => some "mr", fun _ => none⟩

/-- C1 witness entries: distinct relevant titles, both dated today. -/
def C1e1 : Entry := ⟨"Latur fair opens", "l1", "d", "x", none⟩

/-- Second C1 witness entry. -/
def C1e2 : Entry := ⟨"Latur road work", "l2", "d", "y", none⟩

/-- Witness for the amended C1 on a concrete run of two entries. -/
theorem C1_witness :
    (fetch_and_process_news C1env [C1e1, C1e2]).Pairwise (fun a b => a.title ≠ b.title) :=
  C1_amended_title_unique C1env [C1e1, C1e2] (fun _ _ => rfl)

/-- Environment for the C1 counterexample: English is detected and the
translator maps every input to the same string. -/
def C1dupEnv : Env :=
  ⟨id, fun _ => none, fun _ => some 0, 0, fun _ => some "en", fun _ => some "SAME"⟩

/-- First C1 counterexample entry. -/
def C1d1 : Entry := ⟨"Latur news A", "l1", "d", "x", none⟩

/-- Second C1 counterexample entry, with a different raw title. -/
def C1d2 : Entry := ⟨"Latur news B", "l2", "d", "y", none⟩

/-- Counterexample for C1 as stated: two raw entries with distinct
titles both survive deduplication, and translation maps both titles to
the same string, so the published collection contains two NewsItems with
identical title. -/
theorem C1_counterexample :
    (fetch_and_process_news C1dupEnv [C1d1, C1d2]).map NewsItem.title = ["SAME", "SAME"] ∧
    C1d1.title ≠ C1d2.title ∧
    ¬ (fetch_and_process_news C1dupEnv [C1d1, C1d2]).Pairwise
        (fun a b => a.title ≠ b.title) := by
  refine ⟨by decide, by decide, ?_⟩
  intro h
  have h2 : (fetch_and_process_news C1dupEnv [C1d1, C1d2]).map NewsItem.title =
      ["SAME", "SAME"] := by decide
  rw [show fetch_and_process_news C1dupEnv [C1d1, C1d2] =
    [mkItem C1dupEnv C1d1, mkItem C1dupEnv C1d2] from by decide] at h
  rcases List.pairwise_cons.mp h with ⟨hne, -⟩
  exact hne (mkItem C1dupEnv C1d2) (List.mem_singleton.mpr rfl) (by decide)

/-- C4: for a raw entry whose source label matches a trusted-source
allow-list entry (substring match) and whose title is not yet seen,
keyword relevance is bypassed but the recency check still applies: with
no keyword match in title or summary text, the entry is appended when
dated today and the output is unchanged when not. -/
theorem C4_trusted_bypass (env : Env) (s : St) (e : Entry)
    (htr : is_trusted e = true)
    (hseen : s.seen_titles.contains e.title = false)
    (_hirr1 : is_relevant e.title = false)
    (_hirr2 : is_relevant (env.stripHtml e.summary) = false) :
    (is_today env e = true →
      (step env s e).news_items = s.news_items ++ [mkItem env e]) ∧
    (is_today env e = false → (step env s e).news_items = s.news_items) := by
  have hg : relevGate env e = true := by simp [relevGate, htr]
  constructor
  · intro ht
    rw [step_of_accept hseen hg ht]
  · intro ht
    rw [step_of_stale hseen hg ht]

/-- Environment for the C4 witness, whose clock day matches the parsed
date of every entry. -/
def C4envT : Env :=
  ⟨id, fun _ => none, fun _ => some 5, 5, fun _ => some "mr", fun _ => none⟩

/-- Environment for the C4 witness with the clock moved to a different
day, so every entry falls outside the window. -/
def C4envS : Env :=
  ⟨id, fun _ => none, fun _ => some 5, 6, fun _ => some "mr", fun _ => none⟩

/-- C4 witness entry: trusted source label, no district keyword in title
or summary. -/
def C4e : Entry :=
  ⟨"Weather outlook bulletin", "l", "d", "Cloudy skies expected", some "Aaj Latur"⟩

/-- Witness for C4: the trusted keyword-free entry is published when
dated today and dropped when dated outside the window. -/
theorem C4_witness :
    (step C4envT ⟨[], []⟩ C4e).news_items = [mkItem C4envT C4e] ∧
    (step C4envS ⟨[], []⟩ C4e).news_items = [] := by
  constructor
  · have h := C4_trusted_bypass C4envT ⟨[], []⟩ C4e (by decide) (by decide) (by decide)
      (by decide)
    simpa using h.1 (by decide)
  · have h := C4_trusted_bypass C4envS ⟨[], []⟩ C4e (by decide) (by decide) (by decide)
      (by decide)
    simpa using h.2 (by decide)

/-- C5: an entry whose published-date string fails to parse is treated
as not current and contributes nothing to the output, and processing of
the remaining entries continues unchanged: the run over
`es1 ++ e :: es2` is exactly the fold that continues through `es2` from
the state reached after examining `e`. -/
theorem C5_unparseable_date_excluded (env : Env) (s : St) (e : Entry)
    (es1 es2 : List Entry)
    (h : env.parseDate e.published = none) :
    (step env s e).news_items = s.news_items ∧
    (es1 ++ e :: es2).foldl (step env) s =
      es2.foldl (step env) (step env (es1.foldl (step env) s) e) := by
  have ht : is_today env e = false := by
    show (env.parseDate e.published == some env.today) = false
    rw [h]
    rfl
  exact ⟨step_items_of_not_today ht, by rw [List.foldl_append, List.foldl_cons]⟩

/-- Environment for the C5 witness: every date string fails to parse. -/
def C5env : Env :=
  ⟨id, fun _ => none, fun _ => none, 0, fun _ => some "mr", fun _ => none⟩

/-- C5 witness entry with the unparseable date. -/
def C5e : Entry := ⟨"Latur civic news", "l", "not-a-date", "x", none⟩

/-- Neighbour entry before the C5 witness entry. -/
def C5a : Entry := ⟨"Latur market report", "la", "also-bad", "y", none⟩

/-- Neighbour entry after the C5 witness entry. -/
def C5b : Entry := ⟨"Latur sports round", "lb", "also-bad", "z", none⟩

/-- Witness for C5 on a concrete three-entry run. -/
theorem C5_witness :
    C5env.parseDate C5e.published = none ∧
    (step C5env ⟨[], []⟩ C5e).news_items = [] ∧
    ([C5a] ++ C5e :: [C5b]).foldl (step C5env) ⟨[], []⟩ =
      [C5b].foldl (step C5env) (step C5env ([C5a].foldl (step C5env) ⟨[], []⟩) C5e) := by
  have h := C5_unparseable_date_excluded C5env ⟨[], []⟩ C5e [C5a] [C5b] rfl
  exact ⟨rfl, h.1, h.2⟩

/-- The "usable embedded image" test implicit in lines 235–242: an image
reference found in the summary whose address is non-empty (a falsy empty
`src` triggers the fallback in the code) and does not look like a
tracking pixel. -/
def usableImg (o : Option String) : Option String :=
  match o with
  | none => none
  | some u =>
    if u = "" || containsSub "tracker" u || containsSub "pixel" u then none else some u

lemma usableImg_none_cases {o : Option String} (h : usableImg o = none) :
    o = none ∨ ∃ u, o = some u ∧
      (decide (u = "") || containsSub "tracker" u || containsSub "pixel" u) = true := by
  cases o with
  | none => exact Or.inl rfl
  | some u =>
    refine Or.inr ⟨u, rfl, ?_⟩
    have h2 : (if u = "" || containsSub "tracker" u || containsSub "pixel" u then
        (none : Option String) else some u) = none := h
    split at h2
    · assumption
    · cases h2

lemma usableImg_some_cases {o : Option String} {u : String} (h : usableImg o = some u) :
    o = some u ∧
      (decide (u = "") || containsSub "tracker" u || containsSub "pixel" u) = false := by
  cases o with
  | none => cases h
  | some w =>
    have h2 : (if w = "" || containsSub "tracker" w || containsSub "pixel" w then
        (none : Option String) else some w) = some u := h
    split at h2
    · cases h2
    · injection h2 with h2
      subst h2
      rename_i hcond
      exact ⟨rfl, Bool.eq_false_iff.mpr hcond⟩

lemma thumbnail_of_unusable (env : Env) (e : Entry)
    (h : usableImg (env.findImg e.summary) = none) :
    thumbnail env e =
      (match resolveDomain (srcLabel e) with
        | some d => (logoURL d, true)
        | none => (placeholderURL, false)) := by
  unfold thumbnail
  rcases usableImg_none_cases h with hf | ⟨u, hf, hcond⟩
  · rw [hf]
    cases hr : resolveDomain (srcLabel e) <;> simp [hr]
  · rw [hf]
    dsimp only
    rw [if_pos hcond]

lemma thumbnail_of_usable (env : Env) (e : Entry) (u : String)
    (h : usableImg (env.findImg e.summary) = some u) :
    thumbnail env e = (u, false) := by
  obtain ⟨hf, hcond⟩ := usableImg_some_cases h
  unfold thumbnail
  rw [hf]
  dsimp only
  rw [if_neg (by rw [hcond]; exact Bool.false_ne_true)]

/-- C8: when the summary yields no usable embedded image (none found, an
empty address, or an address containing "tracker" or "pixel"), a
resolvable source label gives the synthesized logo-service URL with
`is_logo = true` and an unresolvable one gives the generic placeholder
with `is_logo = false`; a usable embedded image is kept with
`is_logo = false`. -/
theorem C8_thumbnail_policy (env : Env) (e : Entry) :
    (usableImg (env.findImg e.summary) = none →
      (∀ d, resolveDomain (srcLabel e) = some d → thumbnail env e = (logoURL d, true)) ∧
      (resolveDomain (srcLabel e) = none → thumbnail env e = (placeholderURL, false))) ∧
    (∀ u, usableImg (env.findImg e.summary) = some u → thumbnail env e = (u, false)) := by
  refine ⟨fun h => ⟨fun d hd => ?_, fun hz => ?_⟩, fun u hu => thumbnail_of_usable env e u hu⟩
  · rw [thumbnail_of_unusable env e h, hd]
  · rw [thumbnail_of_unusable env e h, hz]

/-- Environment for the C8 witness: the summary markup yields no image. -/
def C8env : Env :=
  ⟨id, fun _ => none, fun _ => some 0, 0, fun _ => some "mr", fun _ => none⟩

/-- C8 witness entry with a source label resolvable by exact registry
lookup. -/
def C8e : Entry := ⟨"Latur city digest", "l", "d", "no markup here", some "Lokmat"⟩

/-- Witness for C8: no embedded image and a resolvable label yield the
clearbit logo URL with the logo flag set. -/
theorem C8_witness :
    usableImg (C8env.findImg C8e.summary) = none ∧
    resolveDomain (srcLabel C8e) = some "lokmat.com" ∧
    thumbnail C8env C8e = (logoURL "lokmat.com", true) := by
  refine ⟨rfl, by decide, ?_⟩
  exact ((C8_thumbnail_policy C8env C8e).1 rfl).1 "lokmat.com" (by decide)

lemma lookup_snd_mem :
    ∀ (l : List (String × String)) (k v : String),
      List.lookup k l = some v → ∃ p ∈ l, p.2 = v := by
  intro l
  induction l with
  | nil => intro k v h; cases h
  | cons p rest ih =>
    intro k v h
    obtain ⟨a, b⟩ := p
    rw [List.lookup] at h
    split at h
    · injection h with h
      exact ⟨(a, b), List.mem_cons_self _ _, h⟩
    · obtain ⟨q, hq, hv⟩ := ih k v h
      exact ⟨q, List.mem_cons_of_mem _ hq, hv⟩

lemma resolveDomain_mem {s d : String} (h : resolveDomain s = some d) :
    ∃ p ∈ SOURCE_DOMAINS, p.2 = d := by
  unfold resolveDomain at h
  cases hl : List.lookup s SOURCE_DOMAINS with
  | some v =>
    rw [hl] at h
    injection h with h
    exact h ▸ lookup_snd_mem SOURCE_DOMAINS s v hl
  | none =>
    rw [hl] at h
    obtain ⟨q, hq, hv⟩ := Option.map_eq_some'.mp h
    exact ⟨q, List.mem_of_find?_eq_some hq, hv⟩

lemma string_append_ne_empty (s t : String) (hs : s.data ≠ []) : s ++ t ≠ "" := by
  intro h
  have h2 : (s ++ t).data = [] := congrArg String.data h
  rw [String.data_append] at h2
  exact hs (List.append_eq_nil.mp h2).1

lemma thumbnail_range (env : Env) (e : Entry) :
    (thumbnail env e).1 ≠ "" ∧
    ((thumbnail env e).2 = true →
      ∃ p ∈ SOURCE_DOMAINS, (thumbnail env e).1 = logoURL p.2) ∧
    ((thumbnail env e).2 = false →
      (thumbnail env e).1 = placeholderURL ∨
      env.findImg e.summary = some (thumbnail env e).1) := by
  rcases hu : usableImg (env.findImg e.summary) with - | u
  · cases hr : resolveDomain (srcLabel e) with
    | some d =>
      rw [thumbnail_of_unusable env e hu, hr]
      dsimp only
      refine ⟨string_append_ne_empty _ _ (by decide), ?_, ?_⟩
      · intro _
        obtain ⟨p, hp, hpd⟩ := resolveDomain_mem hr
        exact ⟨p, hp, by rw [hpd]⟩
      · intro hf
        exact absurd hf (by decide)
    | none =>
      rw [thumbnail_of_unusable env e hu, hr]
      dsimp only
      refine ⟨by decide, ?_, ?_⟩
      · intro ht
        exact absurd ht (by decide)
      · intro _
        exact Or.inl rfl
  · obtain ⟨hf, hcond⟩ := usableImg_some_cases hu
    rw [thumbnail_of_usable env e u hu]
    dsimp only
    have hne : u ≠ "" := by
      intro hw
      subst hw
      rw [show (decide (("" : String) = "") || containsSub "tracker" "" ||
        containsSub "pixel" "") = true from by decide] at hcond
      cases hcond
    refine ⟨hne, ?_, ?_⟩
    · intro ht
      exact absurd ht (by decide)
    · intro _
      exact Or.inr hf

/-- C10: every NewsItem in the published snapshot has a non-empty image
URL; when `is_logo` is true the image is the synthesized logo-service
URL built from a registry domain; when `is_logo` is false the image is
either the generic placeholder or an image embedded in some entry's
summary. -/
theorem C10_image_invariant (env : Env) (es : List Entry) :
    ∀ item ∈ fetch_and_process_news env es,
      item.image ≠ "" ∧
      (item.is_logo = true → ∃ p ∈ SOURCE_DOMAINS, item.image = logoURL p.2) ∧
      (item.is_logo = false →
        item.image = placeholderURL ∨
        ∃ e ∈ es, env.findImg e.summary = some item.image) := by
  intro item hmem
  rcases items_foldl_shape env es ⟨[], []⟩ item hmem with h | ⟨e, he, rfl⟩
  · cases h
  · have hr := thumbnail_range env e
    have himg : (mkItem env e).image = (thumbnail env e).1 := rfl
    have hlog : (mkItem env e).is_logo = (thumbnail env e).2 := rfl
    rw [himg, hlog]
    exact ⟨hr.1, hr.2.1, fun hf => (hr.2.2 hf).imp id (fun hx => ⟨e, he, hx⟩)⟩

/-- Environment for the C10 witness. -/
def C10env : Env :=
  ⟨id, fun _ => none, fun _ => some 0, 0, fun _ => some "mr", fun _ => none⟩

/-- C10 witness entry: relevant, dated today, unresolvable source. -/
def C10e : Entry := ⟨"Latur update", "l", "d", "plain text", none⟩

/-- Witness for C10 on a concrete one-entry run. -/
theorem C10_witness :
    (mkItem C10env C10e).image ≠ "" ∧
    ((mkItem C10env C10e).is_logo = true →
      ∃ p ∈ SOURCE_DOMAINS, (mkItem C10env C10e).image = logoURL p.2) ∧
    ((mkItem C10env C10e).is_logo = false →
      (mkItem C10env C10e).image = placeholderURL ∨
      ∃ e ∈ [C10e], C10env.findImg e.summary = some (mkItem C10env C10e).image) :=
  C10_image_invariant C10env [C10e] (mkItem C10env C10e) (by decide)

/-- C9 (amended): if language detection fails, or the title translation
fails, the item keeps both its original title and description; if only
the description translation fails after the title translation succeeded,
the item keeps the translated title and the original description; in
every case the failure stays inside the language-normalization step —
an accepted entry is still appended to the output whatever the
detection and translation oracles do. -/
theorem C9_amended_translation_fallback (env : Env) (t d : String) :
    (env.detect (t ++ " " ++ d) = none → translateStep env t d = (t, d)) ∧
    (∀ lang, env.detect (t ++ " " ++ d) = some lang → lang ≠ "mr" →
      env.translate t = none → translateStep env t d = (t, d)) ∧
    (∀ lang t2, env.detect (t ++ " " ++ d) = some lang → lang ≠ "mr" →
      env.translate t = some t2 → env.translate (pyTake d 500) = none →
      translateStep env t d = (t2, d)) ∧
    (∀ (s : St) (e : Entry), s.seen_titles.contains e.title = false →
      relevGate env e = true → is_today env e = true →
      (step env s e).news_items = s.news_items ++ [mkItem env e]) := by
  refine ⟨?_, ?_, ?_, ?_⟩
  · intro h
    unfold translateStep
    rw [h]
  · intro lang h hne htr
    unfold translateStep
    rw [h]
    dsimp only
    rw [if_pos hne, htr]
  · intro lang t2 h hne htr hdr
    unfold translateStep
    rw [h]
    dsimp only
    rw [if_pos hne, htr]
    dsimp only
    rw [hdr]
  · intro s e hseen hg ht
    rw [step_of_accept hseen hg ht]

/-- Environment for the C9 witness: language detection always fails. -/
def C9wEnv : Env :=
  ⟨id, fun _ => none, fun _ => some 0, 0, fun _ => none, fun _ => none⟩

/-- Witness for the amended C9: when detection fails, both texts pass
through unchanged. -/
theorem C9_witness :
    translateStep C9wEnv "Shear data" "body text" = ("Shear data", "body text") :=
  (C9_amended_translation_fallback C9wEnv "Shear data" "body text").1 rfl

/-- Environment for the C9 counterexample: English is detected, the
title translates successfully, and the description translation fails. -/
def C9env : Env :=
  ⟨id, fun _ => none, fun _ => some 0, 0, fun _ => some "en",
    fun s => if s = "Latur rainfall report" then some "शीर्षक" else none⟩

/-- C9 counterexample entry. -/
def C9e : Entry := ⟨"Latur rainfall report", "l", "d", "Rain detail", none⟩

/-- Counterexample for C9 as stated: the description translation fails
(a TranslationError occurred for this entry), yet the published item
does not carry its original title unchanged — the already-translated
title is kept, so on partial failure the item is not published with the
original title and description. -/
theorem C9_counterexample :
    C9env.translate (pyTake (C9env.stripHtml C9e.summary) 500) = none ∧
    (fetch_and_process_news C9env [C9e]).map (fun it => (it.title, it.description)) =
      [("शीर्षक", "Rain detail")] ∧
    "शीर्षक" ≠ C9e.title := by
  refine ⟨by decide, by decide, by decide⟩

/-- Environment for the C2 runs: no images, Marathi detected (no
translation), every date parses to today. -/
def C2env : Env :=
  ⟨id, fun _ => none, fun _ => some 0, 0, fun _ => some "mr", fun _ => none⟩

/-- First C2 entry, as in the spec's end-to-end example. -/
def C2e1 : Entry := ⟨"Latur Election Results", "l1", "d", "s1", none⟩

/-- Second C2 entry, as in the spec's end-to-end example: the title
mentions the excluded region "Pune" but also the target district
"Latur". -/
def C2e2 : Entry := ⟨"Pune Budget Announced, Latur Gets Funds", "l2", "d", "s2", none⟩

/-- Variant second entry for the amended C2: the title mentions "Pune"
and no target keyword; relevance comes only from the summary text. -/
def C2e2x : Entry := ⟨"Pune Budget Announced", "l3", "d", "Latur allocation details", none⟩

/-- Counterexample for C2 as stated: under the spec-modelled strict
exclusion policy, the title "Pune Budget Announced, Latur Gets Funds"
does pass the strict-mode title keyword check (it contains the
word-bounded keyword "Latur"), so the entry is not excluded and the
output contains both items, not only the first. -/
theorem C2_counterexample :
    (strict_fetch_and_process_news C2env [C2e1, C2e2]).map NewsItem.title =
      ["Latur Election Results", "Pune Budget Announced, Latur Gets Funds"] ∧
    mentionsExcludedRegion C2e2.title = true ∧
    is_relevant C2e2.title = true := by
  refine ⟨by decide, by decide, by decide⟩

/-- C2 (amended): under the strict exclusion policy, an entry is
rejected only when its title mentions an excluded region and does not
itself mention the target district: with the second title changed to
"Pune Budget Announced" (relevant only through its summary text), the
run over the two entries publishes only the first item, while the
original second title — which also mentions "Latur" — is not
excluded. -/
theorem C2_amended_strict_exclusion :
    (strict_fetch_and_process_news C2env [C2e1, C2e2x]).map NewsItem.title =
      ["Latur Election Results"] ∧
    mentionsExcludedRegion C2e2x.title = true ∧
    is_relevant C2e2x.title = false ∧
    relevGate C2env C2e2x = true ∧
    is_today C2env C2e2x = true := by
  refine ⟨by decide, by decide, by decide, by decide, by decide⟩
